import Mathlib

/-!
Verification development for the DRISHTI_SHIELD_V5 change-detection pipeline.

The Python sources are shallowly embedded here:
* `src/src/utils/geo_utils.py` — geographic projection of pixel boxes
  (`convert_pixels_to_geojson` and its inner `pixel_to_geo` closure);
* `src/api_server.py` — the anomaly classifier, confidence curves and risk
  scoring of the two endpoints (`analyze_area_of_interest`,
  `monitor_satellite_data`);
* `src/src/pipeline/change_detection.py` — `advanced_change_detection`
  with the OpenCV / skimage primitives it calls.

IEEE floats of the source are modelled with exact rationals (reals where a
transcendental function appears); Python's fallible operations (division by
zero) are modelled with `Except`; `uint8` buffers are `ℕ`-valued maps with
values reduced mod 256 where a cast occurs in the source.
-/

namespace Drishti

/-! ## Embedding of src/src/utils/geo_utils.py -/

structure LatLng where
  lat : ℚ
  lng : ℚ
deriving Repr, DecidableEq

/-- `aoi_bounds` dictionary: `{south_west: {lat,lng}, north_east: {lat,lng}}`. -/
structure GeoBounds where
  south_west : LatLng
  north_east : LatLng
deriving Repr, DecidableEq

/-- Runtime error that Python can raise inside `convert_pixels_to_geojson`:
`px / img_width` (or `py / img_height`) raises `ZeroDivisionError` when the
corresponding dimension is `0`.  The function performs no validation of its
own, so this is the only failure it can produce. -/
inductive PyErr where
  | zeroDivision
deriving Repr, DecidableEq

/-- One entry of the `pixel_data` list: a Python dict whose keys are all
optional (`item.get(...)` supplies defaults; a missing `"bbox_pixels"` key
makes the loop `continue`). `bbox_pixels` is `[x1, y1, x2, y2]`. -/
structure PixelItem where
  bbox_pixels : Option (ℚ × ℚ × ℚ × ℚ)
  itemType : Option String
  cls : Option String
  confidence : Option ℚ
deriving Repr, DecidableEq

/-- A produced GeoJSON Point feature: its `coordinates` pair `[lng, lat]`
and the three `properties` entries. -/
structure GeoFeature where
  coordinates : ℚ × ℚ
  propType : String
  propCls : String
  propConfidence : ℚ
deriving Repr, DecidableEq

/-- The returned `FeatureCollection`. -/
structure FeatureColl where
  features : List GeoFeature
deriving Repr, DecidableEq

/-- The `pixel_to_geo` closure of `convert_pixels_to_geojson`
(geo_utils.py lines 13–20):
`lng = min_lng + (px/img_width) * span_lng`,
`lat = max_lat - (py/img_height) * span_lat`.
Python evaluates `px / img_width` first, then `py / img_height`; either
raises `ZeroDivisionError` on a zero dimension. -/
def pixel_to_geo (aoi : GeoBounds) (img_height img_width : ℚ) (px py : ℚ) :
    Except PyErr (ℚ × ℚ) :=
  if img_width = 0 then .error .zeroDivision
  else if img_height = 0 then .error .zeroDivision
  else
    let min_lng := aoi.south_west.lng
    let max_lng := aoi.north_east.lng
    let max_lat := aoi.north_east.lat
    let span_lng := max_lng - min_lng
    let span_lat := max_lat - aoi.south_west.lat
    let percent_x := px / img_width
    let percent_y := py / img_height
    .ok (min_lng + percent_x * span_lng, max_lat - percent_y * span_lat)

/-- Feature construction of the loop body: the three properties fall back to
`"Unknown"`, `"Unknown"` and `0.0` via `item.get`. -/
def featureOfItem (pt : ℚ × ℚ) (item : PixelItem) : GeoFeature :=
  ⟨pt, item.itemType.getD "Unknown", item.cls.getD "Unknown",
    item.confidence.getD 0⟩

/-- The `for item in pixel_data` loop of `convert_pixels_to_geojson`:
items without a `"bbox_pixels"` key are skipped (`continue`), the others
produce one feature at the bbox center, in input order; a raised
`ZeroDivisionError` aborts the whole call. -/
def convertFeatures (aoi : GeoBounds) (img_height img_width : ℚ) :
    List PixelItem → Except PyErr (List GeoFeature)
  | [] => .ok []
  | item :: rest =>
    match item.bbox_pixels with
    | none => convertFeatures aoi img_height img_width rest
    | some (x1, y1, x2, y2) =>
      match pixel_to_geo aoi img_height img_width ((x1 + x2) / 2) ((y1 + y2) / 2) with
      | .error e => .error e
      | .ok pt =>
        match convertFeatures aoi img_height img_width rest with
        | .error e => .error e
        | .ok fs => .ok (featureOfItem pt item :: fs)

/-- `convert_pixels_to_geojson(pixel_data, aoi_bounds, image_dims)`
(geo_utils.py lines 1–51). `image_dims` unpacks as `(img_height, img_width)`. -/
def convert_pixels_to_geojson (pixel_data : List PixelItem) (aoi : GeoBounds)
    (image_dims : ℚ × ℚ) : Except PyErr FeatureColl :=
  match convertFeatures aoi image_dims.1 image_dims.2 pixel_data with
  | .error e => .error e
  | .ok fs => .ok ⟨fs⟩

/-- Declarative per-item description of the loop body, used to characterize
the whole loop: a feature exactly when the item has a `"bbox_pixels"` key. -/
def specFeature (aoi : GeoBounds) (img_height img_width : ℚ) (item : PixelItem) :
    Option GeoFeature :=
  item.bbox_pixels.map fun bb =>
    featureOfItem
      (aoi.south_west.lng +
          ((bb.1 + bb.2.2.1) / 2 / img_width) *
            (aoi.north_east.lng - aoi.south_west.lng),
        aoi.north_east.lat -
          ((bb.2.1 + bb.2.2.2) / 2 / img_height) *
            (aoi.north_east.lat - aoi.south_west.lat))
      item

/-! ## Embedding of the classifier / scorer of src/api_server.py -/

/-- Threat-tier assignment of `analyze_area_of_interest`
(api_server.py line 104): `"HIGH" if area > 1000 else "MEDIUM" if area > 200
else "LOW"`. -/
def threatLevelAnalyze (area : ℚ) : String :=
  if area > 1000 then "HIGH" else if area > 200 then "MEDIUM" else "LOW"

/-- Anomaly labelling of `analyze_area_of_interest`
(api_server.py lines 90–96). -/
def anomalyLabelAnalyze (area : ℚ) : String :=
  if area > 1000 then "Major Structure"
  else if area > 200 then "Vehicle / Site"
  else "Minor Anomaly / Movement"

/-- Threat-tier assignment of `monitor_satellite_data`
(api_server.py lines 188–202): HIGH above 1500, MEDIUM above 800
("Military Equipment") or above 300 ("Personnel Movement"), LOW otherwise. -/
def threatLevelMonitor (area : ℚ) : String :=
  if area > 1500 then "HIGH"
  else if area > 800 then "MEDIUM"
  else if area > 300 then "MEDIUM"
  else "LOW"

/-- Confidence curve of `analyze_area_of_interest` (api_server.py line 101):
`0.9 + np.log1p(area) / 10.0`, with `log1p x = log (1 + x)`. -/
noncomputable def confidenceAnalyze (area : ℝ) : ℝ :=
  0.9 + Real.log (1 + area) / 10

/-- Confidence curve of `monitor_satellite_data` (api_server.py line 204):
`min(0.95, 0.7 + area / 2000.0)`. -/
def confidenceMonitor (area : ℚ) : ℚ :=
  min (95 / 100) (7 / 10 + area / 2000)

/-- Risk aggregation of `analyze_area_of_interest` (api_server.py line 108):
`min(max(n * 1.5 + total_area / 1000 + (1 - ssim) * 10, 0), 10)` where `n`
is the number of fused anomalies and `total_area` their area sum. -/
def risk_score_analyze (areas : List ℚ) (ssim_score : ℚ) : ℚ :=
  min (max (((areas.length : ℚ)) * (3 / 2) + areas.sum / 1000 +
      (1 - ssim_score) * 10) 0) 10

/-- Risk aggregation of `monitor_satellite_data`
(api_server.py lines 218–222): `high * 4 + medium * 2 + n * 1`, clamped to
`[0, 10]`, with the tier counts taken from `threatLevelMonitor`. -/
def risk_score_monitor (areas : List ℚ) : ℚ :=
  let high := (areas.filter fun a => threatLevelMonitor a = "HIGH").length
  let med := (areas.filter fun a => threatLevelMonitor a = "MEDIUM").length
  min (max ((high : ℚ) * 4 + (med : ℚ) * 2 + (areas.length : ℚ) * 1) 0) 10

/-- The spec's weighted-linear scoring policy (spec section 4.4), written
from the spec's words: `clamp(w1*count + w2*total_area + w3*(1 - s), 0, 10)`. -/
def specWeightedLinear (w1 w2 w3 : ℚ) (count : ℕ) (total_area s : ℚ) : ℚ :=
  min (max (w1 * (count : ℚ) + w2 * total_area + w3 * (1 - s)) 0) 10

/-- The spec's alternate discrete policy (spec section 4.4), written from
the spec's words: `clamp(HIGH*4 + MEDIUM*2 + count*1, 0, 10)`. -/
def specThreatTier (high med count : ℕ) : ℚ :=
  min (max ((high : ℚ) * 4 + (med : ℚ) * 2 + (count : ℚ) * 1) 0) 10

/-! ## Embedding of src/src/pipeline/change_detection.py

`advanced_change_detection` reads two images, resizes the second to the
first's size, converts to grayscale, runs skimage's windowed structural
similarity (7×7 uniform windows), scales the similarity surface to a byte
image, binarizes it with OpenCV's Otsu threshold (inverted), cleans it with
5×5 morphological opening and closing (two iterations each), extracts outer
connected components, keeps those of area above 100 and draws them filled
into a fresh mask.  On any failure (unreadable image, similarity failure) it
returns a 512×512 zero mask, score 1.0 and an empty list. -/

/-- A decoded 3-channel image as produced by `cv2.imread`: BGR byte
channels. -/
structure CImage where
  height : ℕ
  width : ℕ
  pix : ℕ → ℕ → ℕ × ℕ × ℕ

/-- A single-channel byte image. -/
structure GrayImage where
  height : ℕ
  width : ℕ
  pix : ℕ → ℕ → ℕ

/-- Clamp an integer index into `[0, n)` (OpenCV border replication; for the
5×5 min/max filters below this coincides with ignoring out-of-range
neighbours, since every clamped position stays inside the window's
in-range part). -/
def clampIdx (n : ℕ) (t : ℤ) : ℕ := (min (max t 0) ((n : ℤ) - 1)).toNat

/-- Round a rational to the nearest integer and cast to `uint8`
(wrap mod 256), as OpenCV does when storing interpolated values. -/
def roundByte (q : ℚ) : ℕ := ⌊q + 1 / 2⌋.toNat % 256

/-- Truncate a nonnegative rational toward zero and cast to `uint8`, as
numpy's `astype("uint8")` does. -/
def truncByte (q : ℚ) : ℕ := ⌊q⌋.toNat % 256

/-- Source coordinate of destination index `i` under `cv2.resize`'s
pixel-center mapping: `(i + 1/2) * srcLen / dstLen - 1/2`. -/
def srcCoord (dstLen srcLen : ℕ) (i : ℕ) : ℚ :=
  ((i : ℚ) + 1 / 2) * (srcLen : ℚ) / (dstLen : ℚ) - 1 / 2

/-- One channel of bilinear interpolation at destination pixel `(i, j)`. -/
def resizeChannelAt (img : CImage) (sel : ℕ × ℕ × ℕ → ℕ) (H W : ℕ)
    (i j : ℕ) : ℕ :=
  let fy := srcCoord H img.height i
  let fx := srcCoord W img.width j
  let y0 : ℤ := ⌊fy⌋
  let x0 : ℤ := ⌊fx⌋
  let dy : ℚ := fy - (y0 : ℚ)
  let dx : ℚ := fx - (x0 : ℚ)
  let p : ℤ → ℤ → ℚ := fun a b =>
    ((sel (img.pix (clampIdx img.height a) (clampIdx img.width b)) : ℚ))
  roundByte ((1 - dy) * ((1 - dx) * p y0 x0 + dx * p y0 (x0 + 1)) +
    dy * ((1 - dx) * p (y0 + 1) x0 + dx * p (y0 + 1) (x0 + 1)))

/-- `cv2.resize(img, (W, H))` with the default bilinear interpolation,
channel by channel. -/
def cvResize (img : CImage) (H W : ℕ) : CImage :=
  ⟨H, W, fun i j =>
    (resizeChannelAt img (fun c => c.1) H W i j,
      resizeChannelAt img (fun c => c.2.1) H W i j,
      resizeChannelAt img (fun c => c.2.2) H W i j)⟩

/-- `cv2.cvtColor(img, cv2.COLOR_BGR2GRAY)`: OpenCV's fixed-point luminance
`(R*4899 + G*9617 + B*1868 + 2^13) >> 14` on BGR-ordered channels. -/
def cvtGray (img : CImage) : GrayImage :=
  ⟨img.height, img.width, fun i j =>
    ((img.pix i j).2.2 * 4899 + (img.pix i j).2.1 * 9617 +
      (img.pix i j).1 * 1868 + 8192) / 16384⟩

/-- Reflect an integer index into `[0, n)` the way scipy's uniform filter
pads (`(d c b a | a b c d | d c b a)` pattern of period `2n`). -/
def reflectIdx (n : ℕ) (t : ℤ) : ℕ :=
  if n = 0 then 0
  else
    let m := (t % (2 * (n : ℤ))).toNat
    if m < n then m else 2 * n - 1 - m

/-- The 49 values of the 7×7 window centred at `(i, j)` (skimage's default
`win_size = 7`), with reflected boundary. -/
def windowVals (g : GrayImage) (i j : ℕ) : List ℚ :=
  (List.range 49).map fun k =>
    ((g.pix (reflectIdx g.height ((i : ℤ) + ((k / 7 : ℕ) : ℤ) - 3))
        (reflectIdx g.width ((j : ℤ) + ((k % 7 : ℕ) : ℤ) - 3)) : ℚ))

/-- skimage's `C1 = (0.01 * data_range)^2` with `data_range = 255`. -/
def ssimC1 : ℚ := (51 / 20) ^ 2

/-- skimage's `C2 = (0.03 * data_range)^2` with `data_range = 255`. -/
def ssimC2 : ℚ := (153 / 20) ^ 2

/-- Mean over one 7×7 window (uniform filter, `N = 49`). -/
def winMean (l : List ℚ) : ℚ := l.sum / 49

/-- The local structural-similarity value at `(i, j)`: skimage's
`S = ((2 ux uy + C1)(2 vxy + C2)) / ((ux² + uy² + C1)(vx + vy + C2))`
with sample-covariance normalisation `N/(N-1) = 49/48`. -/
def localS (x y : GrayImage) (i j : ℕ) : ℚ :=
  let wx := windowVals x i j
  let wy := windowVals y i j
  let ux := winMean wx
  let uy := winMean wy
  let uxx := winMean (wx.map fun v => v * v)
  let uyy := winMean (wy.map fun v => v * v)
  let uxy := winMean ((wx.zip wy).map fun p => p.1 * p.2)
  let vx := (49 / 48 : ℚ) * (uxx - ux * ux)
  let vy := (49 / 48 : ℚ) * (uyy - uy * uy)
  let vxy := (49 / 48 : ℚ) * (uxy - ux * uy)
  ((2 * ux * uy + ssimC1) * (2 * vxy + ssimC2)) /
    ((ux * ux + uy * uy + ssimC1) * (vx + vy + ssimC2))

/-- Positions kept for the mean score: skimage crops `pad = 3` pixels from
each border before averaging. -/
def cropPositions (h w : ℕ) : List (ℕ × ℕ) :=
  (List.range (h - 6)).flatMap fun a =>
    (List.range (w - 6)).map fun b => (a + 3, b + 3)

/-- The global similarity score: mean of the local values over the cropped
region. -/
def mssim (x y : GrayImage) : ℚ :=
  ((cropPositions x.height x.width).map fun p => localS x y p.1 p.2).sum /
    ((cropPositions x.height x.width).length : ℚ)

/-- `skimage.metrics.structural_similarity(x, y, full=True)`: raises
`ValueError` when a side of the image is smaller than the 7×7 window,
otherwise returns the mean score and the full similarity surface. -/
def structural_similarity (x y : GrayImage) :
    Except Unit (ℚ × (ℕ → ℕ → ℚ)) :=
  if x.height < 7 ∨ x.width < 7 then .error ()
  else .ok (mssim x y, fun i j => localS x y i j)

/-- `diff = (diff * 255).astype("uint8")`: the similarity surface scaled to
bytes. -/
def diffImage (x y : GrayImage) : GrayImage :=
  ⟨x.height, x.width, fun i j => truncByte (localS x y i j * 255)⟩

/-- All pixel positions of an `h × w` image, row major. -/
def positionsOf (h w : ℕ) : List (ℕ × ℕ) :=
  (List.range h).flatMap fun i => (List.range w).map fun j => (i, j)

/-- Grey-level histogram entry: how many pixels hold value `v`. -/
def histAt (g : GrayImage) (v : ℕ) : ℕ :=
  ((positionsOf g.height g.width).filter fun p => g.pix p.1 p.2 = v).length

/-- Running state of OpenCV's Otsu scan: first-class probability mass `q1`,
(unnormalised between steps) first-class mean `mu1`, best variance so far
and its threshold. -/
structure OtsuSt where
  q1 : ℚ
  mu1 : ℚ
  maxSigma : ℚ
  maxVal : ℕ

/-- One step of OpenCV's `getThreshVal_Otsu_8u` loop at grey level `i`,
with exact rational arithmetic (the `FLT_EPSILON` guards of the float code
protect exactly the zero-mass classes, skipped here by the `q1 = 0 ∨ q2 = 0`
test). -/
def otsuStep (total : ℕ) (mu : ℚ) (hist : ℕ → ℕ) (st : OtsuSt) (i : ℕ) :
    OtsuSt :=
  let p : ℚ := (hist i : ℚ) / (total : ℚ)
  let m := st.mu1 * st.q1
  let q1 := st.q1 + p
  let q2 := 1 - q1
  if q1 = 0 ∨ q2 = 0 then ⟨q1, m, st.maxSigma, st.maxVal⟩
  else
    let mu1 := (m + (i : ℚ) * p) / q1
    let mu2 := (mu - q1 * mu1) / q2
    let sigma := q1 * q2 * (mu1 - mu2) * (mu1 - mu2)
    if st.maxSigma < sigma then ⟨q1, mu1, sigma, i⟩
    else ⟨q1, mu1, st.maxSigma, st.maxVal⟩

/-- OpenCV's Otsu threshold of a byte image: the grey level maximising the
between-class variance (0 when no split has positive variance, e.g. on a
constant image). -/
def otsuThreshold (g : GrayImage) : ℕ :=
  let total := g.height * g.width
  let mu : ℚ :=
    ((List.range 256).map fun i : ℕ => (i : ℚ) * (histAt g i : ℚ) / (total : ℚ)).sum
  ((List.range 256).foldl (otsuStep total mu (histAt g)) ⟨0, 0, 0, 0⟩).maxVal

/-- `cv2.threshold(diff, 0, 255, THRESH_BINARY_INV | THRESH_OTSU)`: pixels
above the Otsu threshold become 0, the rest 255. -/
def thresholdBinaryInvOtsu (g : GrayImage) : GrayImage :=
  let t := otsuThreshold g
  ⟨g.height, g.width, fun i j => if t < g.pix i j then 0 else 255⟩

/-- The 25 neighbour values of the 5×5 structuring element at `(i, j)`,
border handled by index clamping (equivalent to OpenCV's neutral border for
min/max filters, see `clampIdx`). -/
def nbhd25 (g : GrayImage) (i j : ℕ) : List ℕ :=
  (List.range 25).map fun k =>
    g.pix (clampIdx g.height ((i : ℤ) + ((k / 5 : ℕ) : ℤ) - 2))
      (clampIdx g.width ((j : ℤ) + ((k % 5 : ℕ) : ℤ) - 2))

/-- Grayscale erosion by the 5×5 kernel: minimum of the neighbourhood. -/
def erode5 (g : GrayImage) : GrayImage :=
  ⟨g.height, g.width, fun i j => (nbhd25 g i j).foldr min 255⟩

/-- Grayscale dilation by the 5×5 kernel: maximum of the neighbourhood. -/
def dilate5 (g : GrayImage) : GrayImage :=
  ⟨g.height, g.width, fun i j => (nbhd25 g i j).foldr max 0⟩

/-- `cv2.morphologyEx(·, MORPH_OPEN, 5×5 ones, iterations=2)`: two erosions
then two dilations. -/
def morphOpen2 (g : GrayImage) : GrayImage := dilate5 (dilate5 (erode5 (erode5 g)))

/-- `cv2.morphologyEx(·, MORPH_CLOSE, 5×5 ones, iterations=2)`: two
dilations then two erosions. -/
def morphClose2 (g : GrayImage) : GrayImage := erode5 (erode5 (dilate5 (dilate5 g)))

/-- 8-connectivity of two pixel positions. -/
def adjacent8 (p q : ℕ × ℕ) : Bool :=
  decide (p ≠ q) && decide (((p.1 : ℤ) - (q.1 : ℤ)).natAbs ≤ 1) &&
    decide (((p.2 : ℤ) - (q.2 : ℤ)).natAbs ≤ 1)

/-- Fuel-bounded flood fill: grow a component from its frontier among the
remaining pixels, returning the component and what is left. -/
def growComp : ℕ → List (ℕ × ℕ) → List (ℕ × ℕ) → List (ℕ × ℕ) →
    List (ℕ × ℕ) × List (ℕ × ℕ)
  | 0, comp, _, rest => (comp, rest)
  | fuel + 1, comp, frontier, rest =>
    let step := rest.partition fun q => frontier.any fun p => adjacent8 p q
    if step.1.isEmpty then (comp, rest)
    else growComp fuel (comp ++ step.1) step.1 step.2

/-- Fuel-bounded decomposition of a pixel list into 8-connected
components. -/
def componentsOf : ℕ → List (ℕ × ℕ) → List (List (ℕ × ℕ))
  | 0, _ => []
  | _, [] => []
  | fuel + 1, p :: rest =>
    let g := growComp rest.length [p] [p] rest
    g.1 :: componentsOf fuel g.2

/-- The foreground of a binary mask. -/
def nonzeroPixels (g : GrayImage) : List (ℕ × ℕ) :=
  (positionsOf g.height g.width).filter fun p => decide (g.pix p.1 p.2 ≠ 0)

/-- `cv2.findContours(mask, RETR_EXTERNAL, CHAIN_APPROX_SIMPLE)` modelled as
the 8-connected components of the mask's foreground (outer boundaries only:
holes are not separately reported). -/
def findContoursExternal (g : GrayImage) : List (List (ℕ × ℕ)) :=
  componentsOf (nonzeroPixels g).length (nonzeroPixels g)

/-- `cv2.contourArea` on a filled connected component, modelled as the
component's pixel count. -/
def contourAreaPx (c : List (ℕ × ℕ)) : ℕ := c.length

/-- `cv2.drawContours(final_mask, [c], -1, 255, -1)` over the retained
components on a fresh zero mask: a pixel is 255 exactly when some retained
component contains it. -/
def renderMask (h w : ℕ) (cs : List (List (ℕ × ℕ))) : GrayImage :=
  ⟨h, w, fun i j => if cs.any fun c => decide ((i, j) ∈ c) then 255 else 0⟩

/-- The degenerate result of the `except` branch:
`np.zeros((512, 512), dtype=np.uint8)`. -/
def zeros512 : GrayImage := ⟨512, 512, fun _ _ => 0⟩

/-- A concrete 7×7 uniform grey test raster (the smallest size the 7×7
similarity window accepts). -/
def sampleImage : CImage := ⟨7, 7, fun _ _ => (100, 100, 100)⟩

/-- `advanced_change_detection(image_path_t0, image_path_t1)`
(change_detection.py lines 7–46).  The two decoded images stand in for the
two paths (`cv2.imread` returning `None` — the decode failure — is the
`Option`'s `none`); any failure inside the `try` body lands in the
`except` branch, which returns the degenerate
`(np.zeros((512,512)), 1.0, [])`. -/
def advanced_change_detection (img_t0 img_t1 : Option CImage) :
    GrayImage × ℚ × List (List (ℕ × ℕ)) :=
  match img_t0, img_t1 with
  | some t0, some t1 =>
    let t1r := cvResize t1 t0.height t0.width
    let gray_t0 := cvtGray t0
    let gray_t1 := cvtGray t1r
    match structural_similarity gray_t0 gray_t1 with
    | .error _ => (zeros512, 1, [])
    | .ok sd =>
      let diff := diffImage gray_t0 gray_t1
      let thresh := thresholdBinaryInvOtsu diff
      let mask := morphClose2 (morphOpen2 thresh)
      let contours := findContoursExternal mask
      let significant := contours.filter fun c => decide (100 < contourAreaPx c)
      (renderMask gray_t0.height gray_t0.width significant, sd.1, significant)
  | _, _ => (zeros512, 1, [])

/-! ## Helper lemmas -/

/-- A fold whose step fixes the accumulator on every list element leaves it
unchanged. -/
theorem foldl_fixed {α β : Type} (f : α → β → α) (a : α) :
    ∀ l : List β, (∀ x ∈ l, f a x = a) → l.foldl f a = a := by
  intro l
  induction l with
  | nil => intro _; rfl
  | cons x xs ih =>
    intro h
    rw [List.foldl_cons, h x (by simp)]
    exact ih fun y hy => h y (by simp [hy])

/-- Expansion of a sum of squared deviations. -/
theorem sum_map_sub_sq (c : ℚ) :
    ∀ l : List ℚ, (l.map fun v => (v - c) * (v - c)).sum =
      (l.map fun v => v * v).sum - 2 * c * l.sum + (l.length : ℚ) * (c * c) := by
  intro l
  induction l with
  | nil => simp
  | cons x xs ih =>
    simp only [List.map_cons, List.sum_cons, List.length_cons, ih]
    push_cast
    ring

/-- A sum of squares is nonnegative. -/
theorem sum_sq_nonneg (c : ℚ) (l : List ℚ) :
    0 ≤ (l.map fun v => (v - c) * (v - c)).sum := by
  apply List.sum_nonneg
  intro x hx
  simp only [List.mem_map] at hx
  obtain ⟨v, _, rfl⟩ := hx
  exact mul_self_nonneg _

/-- The sample variance of a 49-element window is nonnegative, in the
`mean of squares - square of mean` form the similarity formula uses. -/
theorem winVar_nonneg (l : List ℚ) (hlen : l.length = 49) :
    0 ≤ winMean (l.map fun v => v * v) - winMean l * winMean l := by
  have h1 := sum_sq_nonneg (winMean l) l
  rw [sum_map_sub_sq, hlen] at h1
  unfold winMean at h1 ⊢
  ring_nf at h1 ⊢
  linarith

/-- Zipping a list with itself multiplies each element with itself. -/
theorem zip_self_map (l : List ℚ) :
    ((l.zip l).map fun p => p.1 * p.2) = l.map fun v => v * v := by
  induction l with
  | nil => rfl
  | cons x xs ih => simp [List.zip_cons_cons, ih]

/-- Each window has exactly 49 values. -/
theorem windowVals_length (g : GrayImage) (i j : ℕ) :
    (windowVals g i j).length = 49 := by
  simp [windowVals]

/-- The local similarity value is exactly 1 wherever the two windows hold
the same values (numerator and denominator coincide and are positive, the
variance being nonnegative). -/
theorem localS_eq_one (x y : GrayImage) (i j : ℕ)
    (hwin : windowVals y i j = windowVals x i j) :
    localS x y i j = 1 := by
  simp only [localS]
  rw [hwin, zip_self_map]
  set u := winMean (windowVals x i j) with hu
  set q := winMean ((windowVals x i j).map fun v => v * v) with hq
  have hvar : 0 ≤ q - u * u := winVar_nonneg _ (windowVals_length x i j)
  have hc1 : (0 : ℚ) < ssimC1 := by unfold ssimC1; norm_num
  have hc2 : (0 : ℚ) < ssimC2 := by unfold ssimC2; norm_num
  have hden : (0 : ℚ) <
      (u * u + u * u + ssimC1) *
        ((49 / 48 : ℚ) * (q - u * u) + (49 / 48 : ℚ) * (q - u * u) + ssimC2) := by
    apply mul_pos
    · nlinarith [mul_self_nonneg u]
    · nlinarith
  rw [div_eq_one_iff_eq (ne_of_gt hden)]
  ring

/-- Reflected indices stay inside the image. -/
theorem reflectIdx_lt (n : ℕ) (hn : n ≠ 0) (t : ℤ) : reflectIdx n t < n := by
  have hmod : 0 ≤ t % (2 * (n : ℤ)) := Int.emod_nonneg t (by positivity)
  have hmlt : t % (2 * (n : ℤ)) < 2 * (n : ℤ) :=
    Int.emod_lt_of_pos t (by positivity)
  unfold reflectIdx
  rw [if_neg hn]
  show (if (t % (2 * (n : ℤ))).toNat < n then (t % (2 * (n : ℤ))).toNat
    else 2 * n - 1 - (t % (2 * (n : ℤ))).toNat) < n
  split_ifs with h
  · exact h
  · omega

/-- Two images of the same size that agree on all in-range pixels have the
same windows everywhere. -/
theorem windowVals_congr (x y : GrayImage) (i j : ℕ)
    (hh : y.height = x.height) (hw : y.width = x.width)
    (hhn : x.height ≠ 0) (hwn : x.width ≠ 0)
    (hpix : ∀ a b, a < x.height → b < x.width → y.pix a b = x.pix a b) :
    windowVals y i j = windowVals x i j := by
  unfold windowVals
  apply List.map_congr_left
  intro k _
  rw [hh, hw, hpix _ _ (reflectIdx_lt _ hhn _) (reflectIdx_lt _ hwn _)]

/-- Rounding a byte value to the nearest integer is the identity. -/
theorem roundByte_natCast (c : ℕ) (hc : c < 256) : roundByte (c : ℚ) = c := by
  unfold roundByte
  have h : ⌊(c : ℚ) + 1 / 2⌋ = c := by
    rw [Int.floor_eq_iff]
    constructor
    · push_cast; linarith
    · push_cast; linarith
  rw [h]
  simp [Nat.mod_eq_of_lt hc]

/-- Clamping an in-range index is the identity. -/
theorem clampIdx_of_lt (n i : ℕ) (hi : i < n) : clampIdx n (i : ℤ) = i := by
  unfold clampIdx
  omega

/-- Resizing to the source size leaves every in-range channel untouched:
the pixel-center mapping sends destination index `i` exactly to source
index `i`, the bilinear weights degenerate to the single source pixel, and
rounding a byte is the identity. -/
theorem resizeChannelAt_self (t : CImage) (sel : ℕ × ℕ × ℕ → ℕ)
    (hsel : ∀ i j, sel (t.pix i j) < 256)
    (i j : ℕ) (hi : i < t.height) (hj : j < t.width) :
    resizeChannelAt t sel t.height t.width i j = sel (t.pix i j) := by
  have hhq : ((t.height : ℚ)) ≠ 0 := by
    exact_mod_cast Nat.pos_of_ne_zero (by omega) |>.ne'
  have hwq : ((t.width : ℚ)) ≠ 0 := by
    exact_mod_cast Nat.pos_of_ne_zero (by omega) |>.ne'
  have hsy : srcCoord t.height t.height i = (i : ℚ) := by
    unfold srcCoord; field_simp; ring
  have hsx : srcCoord t.width t.width j = (j : ℚ) := by
    unfold srcCoord; field_simp; ring
  simp only [resizeChannelAt, hsy, hsx, Int.floor_natCast, Int.cast_natCast,
    sub_self, mul_zero, zero_mul, sub_zero, add_zero, zero_add, mul_one, one_mul]
  rw [clampIdx_of_lt _ _ hi, clampIdx_of_lt _ _ hj]
  exact roundByte_natCast _ (hsel i j)

/-- Resizing an image to its own size is the identity on in-range pixels
(channel values are bytes). -/
theorem cvResize_self_pix (t : CImage)
    (hb : ∀ i j, (t.pix i j).1 < 256 ∧ (t.pix i j).2.1 < 256 ∧ (t.pix i j).2.2 < 256)
    (i j : ℕ) (hi : i < t.height) (hj : j < t.width) :
    (cvResize t t.height t.width).pix i j = t.pix i j := by
  show (resizeChannelAt t (fun c => c.1) t.height t.width i j,
      resizeChannelAt t (fun c => c.2.1) t.height t.width i j,
      resizeChannelAt t (fun c => c.2.2) t.height t.width i j) = t.pix i j
  rw [resizeChannelAt_self t (fun c => c.1) (fun a b => (hb a b).1) i j hi hj,
    resizeChannelAt_self t (fun c => c.2.1) (fun a b => (hb a b).2.1) i j hi hj,
    resizeChannelAt_self t (fun c => c.2.2) (fun a b => (hb a b).2.2) i j hi hj]

/-- Position lists: membership. -/
theorem positionsOf_mem (h w : ℕ) (p : ℕ × ℕ) :
    p ∈ positionsOf h w ↔ p.1 < h ∧ p.2 < w := by
  unfold positionsOf
  simp only [List.mem_flatMap, List.mem_map, List.mem_range]
  constructor
  · rintro ⟨i, hi, j, hj, rfl⟩
    exact ⟨hi, hj⟩
  · rintro ⟨h1, h2⟩
    exact ⟨p.1, h1, p.2, h2, rfl⟩

/-- Position lists: length. -/
theorem positionsOf_length (h w : ℕ) : (positionsOf h w).length = h * w := by
  unfold positionsOf
  rw [List.length_flatMap]
  have hc : (List.length ∘ fun i : ℕ => (List.range w).map fun j => (i, j)) =
      fun _ : ℕ => w := by
    funext i
    simp
  rw [hc, List.map_const', List.sum_replicate, List.length_range, smul_eq_mul]

/-- The loop of `convert_pixels_to_geojson`, characterised declaratively:
with nonzero dimensions it succeeds and produces exactly the features of
the items that carry a `"bbox_pixels"` key, in input order. -/
theorem convertFeatures_eq_filterMap (aoi : GeoBounds) (ih iw : ℚ)
    (hh : ih ≠ 0) (hw : iw ≠ 0) :
    ∀ l : List PixelItem,
      convertFeatures aoi ih iw l = .ok (l.filterMap (specFeature aoi ih iw)) := by
  intro l
  induction l with
  | nil => rfl
  | cons item rest ihp =>
    cases hb : item.bbox_pixels with
    | none =>
      simp [convertFeatures, hb, ihp, List.filterMap_cons, specFeature]
    | some bb =>
      obtain ⟨bx, by', cx, cy⟩ := bb
      simp [convertFeatures, hb, pixel_to_geo, hw, hh, ihp,
        List.filterMap_cons, specFeature, featureOfItem]

/-- With a zero dimension, the loop raises `ZeroDivisionError` as soon as
it meets an item carrying a `"bbox_pixels"` key. -/
theorem convertFeatures_zero_dim (aoi : GeoBounds) (ih iw : ℚ)
    (hz : ih = 0 ∨ iw = 0) :
    ∀ l : List PixelItem, (∃ item ∈ l, item.bbox_pixels.isSome) →
      convertFeatures aoi ih iw l = .error .zeroDivision := by
  intro l
  induction l with
  | nil =>
    rintro ⟨item, hmem, _⟩
    cases hmem
  | cons item rest ihp =>
    rintro ⟨it, hmem, hsome⟩
    cases hb : item.bbox_pixels with
    | some bb =>
      obtain ⟨bx, by', cx, cy⟩ := bb
      have hpg : pixel_to_geo aoi ih iw ((bx + cx) / 2) ((by' + cy) / 2) =
          .error .zeroDivision := by
        unfold pixel_to_geo
        split_ifs with h1 h2
        · rfl
        · rfl
        · tauto
      simp [convertFeatures, hb, hpg]
    | none =>
      have hrest : ∃ it ∈ rest, it.bbox_pixels.isSome := by
        rcases List.mem_cons.mp hmem with rfl | hmem2
        · rw [hb] at hsome; cases hsome
        · exact ⟨it, hmem2, hsome⟩
      simp [convertFeatures, hb, ihp hrest]

/-- Crop-position lists: length. -/
theorem cropPositions_length (h w : ℕ) :
    (cropPositions h w).length = (h - 6) * (w - 6) := by
  unfold cropPositions
  rw [List.length_flatMap]
  have hc : (List.length ∘ fun a : ℕ => (List.range (w - 6)).map fun b => (a + 3, b + 3)) =
      fun _ : ℕ => w - 6 := by
    funext a
    simp
  rw [hc, List.map_const', List.sum_replicate, List.length_range, smul_eq_mul]

/-- If every local similarity value is 1 and the image is at least 7×7, the
mean over the cropped region is 1. -/
theorem mssim_eq_one (x y : GrayImage)
    (hh7 : 7 ≤ x.height) (hw7 : 7 ≤ x.width)
    (hloc : ∀ i j, localS x y i j = 1) :
    mssim x y = 1 := by
  unfold mssim
  have hmap : ((cropPositions x.height x.width).map fun p => localS x y p.1 p.2) =
      List.replicate (cropPositions x.height x.width).length 1 := by
    rw [← List.map_const']
    exact List.map_congr_left fun p _ => hloc p.1 p.2
  rw [hmap, List.sum_replicate, nsmul_eq_mul, mul_one]
  have hpos : 0 < (cropPositions x.height x.width).length := by
    rw [cropPositions_length]
    exact Nat.mul_pos (by omega) (by omega)
  exact div_self (by exact_mod_cast hpos.ne')

/-- Histogram of an image whose pixels are all 255. -/
theorem histAt_const255 (g : GrayImage) (hpix : ∀ i j, g.pix i j = 255) :
    ∀ v : ℕ, histAt g v = if v = 255 then g.height * g.width else 0 := by
  intro v
  unfold histAt
  by_cases hv : v = 255
  · subst hv
    rw [if_pos rfl, List.filter_eq_self.mpr, positionsOf_length]
    intro p _
    simp [hpix]
  · rw [if_neg hv, List.filter_eq_nil_iff.mpr, List.length_nil]
    intro p _
    simp only [hpix, decide_eq_true_eq]
    omega

/-- OpenCV's Otsu scan over a histogram wholly concentrated at 255 never
finds a split of positive variance: every level below 255 leaves the first
class empty, level 255 leaves the second class empty, so the returned
threshold is the initial 0. -/
theorem otsu_fold_const (total : ℕ) (mu : ℚ) (hist : ℕ → ℕ)
    (hhist : ∀ v, hist v = if v = 255 then total else 0)
    (htot : ((total : ℕ) : ℚ) ≠ 0) :
    ((List.range 256).foldl (otsuStep total mu hist) ⟨0, 0, 0, 0⟩).maxVal = 0 := by
  have hfix : ∀ x ∈ List.range 255,
      otsuStep total mu hist ⟨0, 0, 0, 0⟩ x = ⟨0, 0, 0, 0⟩ := by
    intro x hx
    rw [List.mem_range] at hx
    have h0 : hist x = 0 := by
      rw [hhist x]
      exact if_neg (by omega)
    unfold otsuStep
    rw [h0]
    norm_num
  rw [show (256 : ℕ) = 255 + 1 from rfl, List.range_succ, List.foldl_append,
    foldl_fixed _ _ _ hfix, List.foldl_cons, List.foldl_nil]
  unfold otsuStep
  rw [hhist 255, if_pos rfl]
  simp [div_self htot]

/-- Otsu's threshold of a constant-255 image is 0. -/
theorem otsu_const255 (g : GrayImage) (hpix : ∀ i j, g.pix i j = 255)
    (hpos : 0 < g.height * g.width) :
    otsuThreshold g = 0 := by
  unfold otsuThreshold
  exact otsu_fold_const _ _ _ (histAt_const255 g hpix) (by exact_mod_cast hpos.ne')

/-- Folding `min` from 255 over a nonempty all-zero list gives 0. -/
theorem foldr_min255_zero (l : List ℕ) (hne : l ≠ []) (hz : ∀ v ∈ l, v = 0) :
    l.foldr min 255 = 0 := by
  cases l with
  | nil => exact absurd rfl hne
  | cons x xs =>
    rw [List.foldr_cons, hz x (by simp)]
    simp

/-- Folding `max` from 0 over an all-zero list gives 0. -/
theorem foldr_max0_zero (l : List ℕ) (hz : ∀ v ∈ l, v = 0) :
    l.foldr max 0 = 0 := by
  induction l with
  | nil => rfl
  | cons x xs ih =>
    rw [List.foldr_cons, hz x (by simp), ih fun v hv => hz v (by simp [hv])]
    simp

/-- Every 5×5 neighbourhood value of an all-zero image is zero. -/
theorem nbhd25_zero (g : GrayImage) (hz : ∀ i j, g.pix i j = 0) (i j : ℕ) :
    ∀ v ∈ nbhd25 g i j, v = 0 := by
  intro v hv
  unfold nbhd25 at hv
  simp only [List.mem_map] at hv
  obtain ⟨k, _, rfl⟩ := hv
  exact hz _ _

/-- The 5×5 neighbourhood list is never empty. -/
theorem nbhd25_ne_nil (g : GrayImage) (i j : ℕ) : nbhd25 g i j ≠ [] := by
  apply List.ne_nil_of_length_pos
  simp [nbhd25]

/-- Erosion preserves the all-zero image. -/
theorem erode5_zero (g : GrayImage) (hz : ∀ i j, g.pix i j = 0) (i j : ℕ) :
    (erode5 g).pix i j = 0 :=
  foldr_min255_zero _ (nbhd25_ne_nil g i j) (nbhd25_zero g hz i j)

/-- Dilation preserves the all-zero image. -/
theorem dilate5_zero (g : GrayImage) (hz : ∀ i j, g.pix i j = 0) (i j : ℕ) :
    (dilate5 g).pix i j = 0 :=
  foldr_max0_zero _ (nbhd25_zero g hz i j)

/-- Opening followed by closing preserves the all-zero image. -/
theorem morph_zero (g : GrayImage) (hz : ∀ i j, g.pix i j = 0) :
    ∀ i j, (morphClose2 (morphOpen2 g)).pix i j = 0 := by
  have h1 := erode5_zero g hz
  have h2 := erode5_zero _ h1
  have h3 := dilate5_zero _ h2
  have h4 := dilate5_zero _ h3
  have h5 := dilate5_zero _ h4
  have h6 := dilate5_zero _ h5
  have h7 := erode5_zero _ h6
  exact erode5_zero _ h7

/-- An all-zero mask has no foreground pixels. -/
theorem nonzeroPixels_nil (g : GrayImage) (hz : ∀ i j, g.pix i j = 0) :
    nonzeroPixels g = [] := by
  unfold nonzeroPixels
  rw [List.filter_eq_nil_iff]
  intro p _
  simp [hz]

/-- No pixels, no components. -/
theorem componentsOf_nil (n : ℕ) : componentsOf n [] = [] := by
  cases n <;> rfl

/-- A similarity failure (image smaller than the 7×7 window) lands in the
`except` branch. -/
theorem acd_small_dims (t0 : CImage) (t1o : Option CImage)
    (hsmall : t0.height < 7 ∨ t0.width < 7) :
    advanced_change_detection (some t0) t1o = (zeros512, 1, []) := by
  cases t1o with
  | none => rfl
  | some t1 =>
    have hs : structural_similarity (cvtGray t0)
        (cvtGray (cvResize t1 t0.height t0.width)) = .error () := by
      unfold structural_similarity
      have hsc : (cvtGray t0).height < 7 ∨ (cvtGray t0).width < 7 := hsmall
      exact if_pos hsc
    simp [advanced_change_detection, hs]

/-- Components retained by the extractor's filter are above the floor. -/
theorem filter_area_floor (cs : List (List (ℕ × ℕ))) :
    ∀ c ∈ cs.filter fun c => decide (100 < contourAreaPx c),
      100 ≤ contourAreaPx c := by
  intro c hc
  have h := List.of_mem_filter hc
  simp only [decide_eq_true_eq] at h
  omega

/-- Every nonzero pixel of the rendered mask belongs to one of the drawn
components. -/
theorem renderMask_pix (h w : ℕ) (cs : List (List (ℕ × ℕ))) (i j : ℕ) :
    (renderMask h w cs).pix i j = 0 ∨ ∃ c ∈ cs, (i, j) ∈ c := by
  by_cases hany : (cs.any fun c => decide ((i, j) ∈ c)) = true
  · right
    rw [List.any_eq_true] at hany
    obtain ⟨c, hc, hdc⟩ := hany
    exact ⟨c, hc, of_decide_eq_true hdc⟩
  · left
    show (if cs.any fun c => decide ((i, j) ∈ c) then (255 : ℕ) else 0) = 0
    rw [if_neg hany]

/-! ## Claims -/

/-- C9: the analysis endpoint's classifier assigns threat tier by the
reference area thresholds: HIGH exactly above 1000 px, MEDIUM exactly on
(200, 1000], LOW exactly at or below 200; in particular a region of about
10000 px is HIGH. -/
theorem c9_threat_tier_thresholds (area : ℚ) :
    (threatLevelAnalyze area = "HIGH" ↔ 1000 < area) ∧
    (threatLevelAnalyze area = "MEDIUM" ↔ 200 < area ∧ area ≤ 1000) ∧
    (threatLevelAnalyze area = "LOW" ↔ area ≤ 200) ∧
    threatLevelAnalyze 10000 = "HIGH" := by
  refine ⟨?_, ?_, ?_, by norm_num [threatLevelAnalyze]⟩ <;>
    unfold threatLevelAnalyze <;>
    split_ifs with h1 h2 <;>
    simp_all <;>
    linarith

/-- C4: whatever the anomaly list and similarity score, the aggregated risk
score lies in `[0, 10]` under both the weighted-linear policy of the
analysis endpoint and the threat-tier-count policy of the monitoring
endpoint (both clamp). -/
theorem c4_risk_in_range (areas : List ℚ) (s : ℚ) :
    0 ≤ risk_score_analyze areas s ∧ risk_score_analyze areas s ≤ 10 ∧
    0 ≤ risk_score_monitor areas ∧ risk_score_monitor areas ≤ 10 := by
  unfold risk_score_analyze risk_score_monitor
  exact ⟨le_min (le_max_right _ _) (by norm_num), min_le_right _ _,
    le_min (le_max_right _ _) (by norm_num), min_le_right _ _⟩

/-- C5: under the bounding-box invariant and nonzero dimensions, a bbox
whose pixel center is `(0, 0)` projects to `(south_west.lng,
north_east.lat)` and one whose center is `(width, height)` projects to
`(north_east.lng, south_west.lat)`. -/
theorem c5_corner_projection (aoi : GeoBounds) (ih iw : ℚ)
    (hlat : aoi.south_west.lat < aoi.north_east.lat)
    (hlng : aoi.south_west.lng < aoi.north_east.lng)
    (hh : ih ≠ 0) (hw : iw ≠ 0)
    (x1 y1 x2 y2 a1 b1 a2 b2 : ℚ)
    (hcx : x1 + x2 = 0) (hcy : y1 + y2 = 0)
    (hax : a1 + a2 = 2 * iw) (hby : b1 + b2 = 2 * ih) :
    pixel_to_geo aoi ih iw ((x1 + x2) / 2) ((y1 + y2) / 2) =
      .ok (aoi.south_west.lng, aoi.north_east.lat) ∧
    pixel_to_geo aoi ih iw ((a1 + a2) / 2) ((b1 + b2) / 2) =
      .ok (aoi.north_east.lng, aoi.south_west.lat) := by
  rw [hcx, hcy, hax, hby]
  unfold pixel_to_geo
  simp only [if_neg hw, if_neg hh, Except.ok.injEq, Prod.mk.injEq]
  constructor
  · constructor <;> (field_simp; try ring)
  · constructor <;> (field_simp; try ring)

/-- C5 witness: the corner projections at a concrete box and image size. -/
theorem c5_witness :
    pixel_to_geo ⟨⟨0, 0⟩, ⟨1, 1⟩⟩ 4 4 ((0 + 0) / 2) ((0 + 0) / 2) =
      .ok ((⟨⟨0, 0⟩, ⟨1, 1⟩⟩ : GeoBounds).south_west.lng,
        (⟨⟨0, 0⟩, ⟨1, 1⟩⟩ : GeoBounds).north_east.lat) ∧
    pixel_to_geo ⟨⟨0, 0⟩, ⟨1, 1⟩⟩ 4 4 ((4 + 4) / 2) ((4 + 4) / 2) =
      .ok ((⟨⟨0, 0⟩, ⟨1, 1⟩⟩ : GeoBounds).north_east.lng,
        (⟨⟨0, 0⟩, ⟨1, 1⟩⟩ : GeoBounds).south_west.lat) :=
  c5_corner_projection ⟨⟨0, 0⟩, ⟨1, 1⟩⟩ 4 4 (by norm_num) (by norm_num)
    (by norm_num) (by norm_num) 0 0 0 0 4 4 4 4 (by norm_num) (by norm_num)
    (by norm_num) (by norm_num)

/-- C2 counterexample: the analysis endpoint's confidence is not clamped to
`[0, 1]`: at area 101 px (every emitted anomaly has area above 100) the
confidence `0.9 + log1p(101)/10` exceeds 1. -/
theorem c2_counterexample_confidence_above_one : 1 < confidenceAnalyze 101 := by
  unfold confidenceAnalyze
  have h102 : (1 : ℝ) < Real.log 102 :=
    (Real.lt_log_iff_exp_lt (by norm_num)).mpr
      (lt_trans Real.exp_one_lt_d9 (by norm_num))
  have he : (1 : ℝ) + 101 = 102 := by norm_num
  rw [he]
  linarith

/-- C2 (amended): both confidence curves are non-decreasing in area; the
monitoring endpoint's curve is clamped into `[0, 1]` (indeed `[0.7, 0.95]`
for nonnegative areas); the analysis endpoint's curve is NOT clamped and
exceeds 1 for every area of at least 2 px. -/
theorem c2_amended_confidence :
    (∀ a b : ℝ, 0 ≤ a → a ≤ b → confidenceAnalyze a ≤ confidenceAnalyze b) ∧
    (∀ a b : ℚ, a ≤ b → confidenceMonitor a ≤ confidenceMonitor b) ∧
    (∀ a : ℚ, 0 ≤ a → 0 ≤ confidenceMonitor a ∧ confidenceMonitor a ≤ 1) ∧
    (∀ a : ℝ, 2 ≤ a → 1 < confidenceAnalyze a) := by
  refine ⟨?_, ?_, ?_, ?_⟩
  · intro a b ha hab
    unfold confidenceAnalyze
    have hlog := Real.log_le_log (by linarith) (by linarith : 1 + a ≤ 1 + b)
    linarith
  · intro a b hab
    unfold confidenceMonitor
    exact min_le_min le_rfl (by linarith)
  · intro a ha
    unfold confidenceMonitor
    exact ⟨le_min (by norm_num) (by linarith),
      le_trans (min_le_left _ _) (by norm_num)⟩
  · intro a ha
    unfold confidenceAnalyze
    have h3 : (1 : ℝ) < Real.log 3 :=
      (Real.lt_log_iff_exp_lt (by norm_num)).mpr
        (lt_trans Real.exp_one_lt_d9 (by norm_num))
    have hmono := Real.log_le_log (by norm_num) (by linarith : (3 : ℝ) ≤ 1 + a)
    linarith

/-- C2 witness: the amended confidence facts at concrete areas. -/
theorem c2_witness :
    confidenceAnalyze 0 ≤ confidenceAnalyze 1 ∧
    confidenceMonitor 0 ≤ confidenceMonitor 1 ∧
    (0 ≤ confidenceMonitor 5 ∧ confidenceMonitor 5 ≤ 1) ∧
    1 < confidenceAnalyze 101 :=
  ⟨c2_amended_confidence.1 0 1 le_rfl zero_le_one,
    c2_amended_confidence.2.1 0 1 (by norm_num),
    c2_amended_confidence.2.2.1 5 (by norm_num),
    c2_amended_confidence.2.2.2 101 (by norm_num)⟩

/-- C6 counterexample: the two endpoints do not score with the same
function: one anomaly of 2000 px with similarity 1 scores 3.5 on the
analysis endpoint and 5 on the monitoring endpoint. -/
theorem c6_counterexample_policies_differ :
    risk_score_analyze [2000] 1 ≠ risk_score_monitor [2000] := by
  have ha : risk_score_analyze [2000] 1 = 7 / 2 := by
    unfold risk_score_analyze
    norm_num [min_def, max_def]
  have hH : threatLevelMonitor 2000 = "HIGH" := by
    norm_num [threatLevelMonitor]
  have hne : ¬ (("HIGH" : String) = "MEDIUM") := by decide
  have hm : risk_score_monitor [2000] = 5 := by
    unfold risk_score_monitor
    simp only [List.filter_cons, List.filter_nil, hH, hne]
    norm_num [min_def, max_def]
  rw [ha, hm]
  norm_num

/-- C6 (amended): the deployment mixes the two policies: the analysis
endpoint scores by the spec's weighted-linear policy with weights
`(1.5, 1/1000, 10)` while the monitoring endpoint scores by the spec's
threat-tier-count policy, and the two scoring functions disagree. -/
theorem c6_amended_mixed_policies :
    (∀ (areas : List ℚ) (s : ℚ),
      risk_score_analyze areas s =
        specWeightedLinear (3 / 2) (1 / 1000) 10 areas.length areas.sum s) ∧
    (∀ areas : List ℚ,
      risk_score_monitor areas =
        specThreatTier
          (areas.filter fun a => threatLevelMonitor a = "HIGH").length
          (areas.filter fun a => threatLevelMonitor a = "MEDIUM").length
          areas.length) ∧
    risk_score_analyze [2000] 1 ≠ risk_score_monitor [2000] := by
  refine ⟨?_, ?_, ?_⟩
  case refine_3 =>
    have ha : risk_score_analyze [2000] 1 = 7 / 2 := by
      unfold risk_score_analyze
      norm_num [min_def, max_def]
    have hH : threatLevelMonitor 2000 = "HIGH" := by
      norm_num [threatLevelMonitor]
    have hne : ¬ (("HIGH" : String) = "MEDIUM") := by decide
    have hm : risk_score_monitor [2000] = 5 := by
      unfold risk_score_monitor
      simp only [List.filter_cons, List.filter_nil, hH, hne]
      norm_num [min_def, max_def]
    rw [ha, hm]
    norm_num
  · intro areas s
    unfold risk_score_analyze specWeightedLinear
    congr 2
    ring
  · intro areas
    rfl

/-- C3 counterexample: called with a bounding box violating the invariant
(`north_east.lat = 5 ≤ 10 = south_west.lat`) and valid dimensions, the
projection does not fail at all: it returns a normal FeatureCollection. -/
theorem c3_counterexample_no_validation :
    convert_pixels_to_geojson [⟨some (0, 0, 2, 2), none, none, none⟩]
      ⟨⟨10, 0⟩, ⟨5, 1⟩⟩ (4, 4) =
      .ok ⟨[⟨(1 / 4, 25 / 4), "Unknown", "Unknown", 0⟩]⟩ := by
  unfold convert_pixels_to_geojson convertFeatures pixel_to_geo featureOfItem
  norm_num
  rfl

/-- C3 (amended): the geo-projection performs no validation and no
`ProjectionError` exists: with nonzero dimensions it always returns a
result, whatever the bounding box (invariant violated or not); with a zero
width or height it raises `ZeroDivisionError` as soon as some item carries
a `"bbox_pixels"` key. -/
theorem c3_amended_no_projection_error :
    (∀ (pixel_data : List PixelItem) (aoi : GeoBounds) (ih iw : ℚ),
      ih ≠ 0 → iw ≠ 0 →
      ∃ fc, convert_pixels_to_geojson pixel_data aoi (ih, iw) = .ok fc) ∧
    (∀ (pixel_data : List PixelItem) (aoi : GeoBounds) (ih iw : ℚ),
      (ih = 0 ∨ iw = 0) →
      (∃ item ∈ pixel_data, item.bbox_pixels.isSome) →
      convert_pixels_to_geojson pixel_data aoi (ih, iw) =
        .error .zeroDivision) := by
  constructor
  · intro pixel_data aoi ih iw hh hw
    refine ⟨⟨pixel_data.filterMap (specFeature aoi ih iw)⟩, ?_⟩
    unfold convert_pixels_to_geojson
    rw [convertFeatures_eq_filterMap aoi ih iw hh hw]
  · intro pixel_data aoi ih iw hz hsome
    unfold convert_pixels_to_geojson
    rw [convertFeatures_zero_dim aoi ih iw hz pixel_data hsome]

/-- C10: with nonzero dimensions the projection returns a FeatureCollection
holding exactly one Point feature per input item that has a
`"bbox_pixels"` key, in input order (a `filterMap`); items without the key
are skipped, and missing `"type"`, `"class"`, `"confidence"` properties
default to `"Unknown"`, `"Unknown"` and `0.0` (see `specFeature` /
`featureOfItem`). -/
theorem c10_geojson_features (pixel_data : List PixelItem) (aoi : GeoBounds)
    (ih iw : ℚ) (hh : ih ≠ 0) (hw : iw ≠ 0) :
    convert_pixels_to_geojson pixel_data aoi (ih, iw) =
      .ok ⟨pixel_data.filterMap (specFeature aoi ih iw)⟩ := by
  unfold convert_pixels_to_geojson
  rw [convertFeatures_eq_filterMap aoi ih iw hh hw]

/-- C10 witness: a two-item list, one item without a bbox (skipped), one
with every property present. -/
theorem c10_witness :
    convert_pixels_to_geojson
      [⟨none, none, none, none⟩,
        ⟨some (1, 1, 3, 3), some "Tank", some "Vehicle", some (9 / 10)⟩]
      ⟨⟨0, 0⟩, ⟨1, 1⟩⟩ (4, 4) =
      .ok ⟨[⟨none, none, none, none⟩,
        ⟨some (1, 1, 3, 3), some "Tank", some "Vehicle", some (9 / 10)⟩].filterMap
          (specFeature ⟨⟨0, 0⟩, ⟨1, 1⟩⟩ 4 4)⟩ :=
  c10_geojson_features _ _ _ _ (by norm_num) (by norm_num)

/-- C7: whenever decoding fails (either `cv2.imread` returns `None`) or the
similarity computation fails (the first image is smaller than the 7×7
window), the engine returns the degenerate result — a fully-zero 512×512
diff mask, similarity score exactly 1.0 and an empty region list — instead
of propagating an exception. -/
theorem c7_degenerate_on_failure (img_t0 img_t1 : Option CImage)
    (hfail : img_t0 = none ∨ img_t1 = none ∨
      ∃ t0, img_t0 = some t0 ∧ (t0.height < 7 ∨ t0.width < 7)) :
    advanced_change_detection img_t0 img_t1 = (zeros512, 1, []) := by
  rcases hfail with rfl | rfl | ⟨t0, rfl, hsmall⟩
  · cases img_t1 <;> rfl
  · cases img_t0 <;> rfl
  · exact acd_small_dims t0 img_t1 hsmall

/-- C7 witness: both decodes failing. -/
theorem c7_witness :
    advanced_change_detection none none = (zeros512, 1, []) :=
  c7_degenerate_on_failure none none (Or.inl rfl)

/-- C8: every region emitted by the extractor has area at least the 100 px
noise floor (the source keeps only `contourArea > 100`), and no component
below the floor appears in the rendered mask: every nonzero mask pixel
belongs to one of the retained regions. -/
theorem c8_min_area_floor (img_t0 img_t1 : Option CImage) :
    (∀ c ∈ (advanced_change_detection img_t0 img_t1).2.2,
      100 ≤ contourAreaPx c) ∧
    (∀ i j : ℕ, (advanced_change_detection img_t0 img_t1).1.pix i j = 0 ∨
      ∃ c ∈ (advanced_change_detection img_t0 img_t1).2.2, (i, j) ∈ c) := by
  cases img_t0 with
  | none =>
    cases img_t1 <;>
      exact ⟨fun c hc => absurd hc (List.not_mem_nil c),
        fun i j => Or.inl rfl⟩
  | some t0 =>
    cases img_t1 with
    | none =>
      exact ⟨fun c hc => absurd hc (List.not_mem_nil c),
        fun i j => Or.inl rfl⟩
    | some t1 =>
      cases hs : structural_similarity (cvtGray t0)
          (cvtGray (cvResize t1 t0.height t0.width)) with
      | error e =>
        constructor
        · intro c hc
          simp only [advanced_change_detection, hs] at hc
          exact absurd hc (List.not_mem_nil c)
        · intro i j
          left
          simp [advanced_change_detection, hs, zeros512]
      | ok sd =>
        constructor
        · intro c hc
          simp only [advanced_change_detection, hs] at hc
          exact filter_area_floor _ c hc
        · intro i j
          simp only [advanced_change_detection, hs]
          exact renderMask_pix _ _ _ i j

/-- C1: two identical successfully decoded images (byte-valued channels)
produce similarity score exactly 1 and an empty anomaly list.  When the
image is at least 7×7 the whole pipeline runs: resizing to the own size is
the identity, every similarity window equals its partner so the surface is
constant 1, the scaled diff is constant 255, Otsu yields threshold 0, the
inverted threshold blanks the mask, morphology preserves the blank mask and
no component survives; smaller images land in the degenerate branch with
the same score and empty list. -/
theorem c1_identical_images (t0 : CImage)
    (hb : ∀ i j, (t0.pix i j).1 < 256 ∧ (t0.pix i j).2.1 < 256 ∧
      (t0.pix i j).2.2 < 256) :
    (advanced_change_detection (some t0) (some t0)).2.1 = 1 ∧
    (advanced_change_detection (some t0) (some t0)).2.2 = [] := by
  by_cases hsmall : t0.height < 7 ∨ t0.width < 7
  · rw [acd_small_dims t0 _ hsmall]
    exact ⟨rfl, rfl⟩
  · push_neg at hsmall
    obtain ⟨hh7, hw7⟩ := hsmall
    have hpix_eq : ∀ a b, a < (cvtGray t0).height → b < (cvtGray t0).width →
        (cvtGray (cvResize t0 t0.height t0.width)).pix a b = (cvtGray t0).pix a b := by
      intro a b ha hbb
      simp only [cvtGray]
      rw [cvResize_self_pix t0 hb a b ha hbb]
    have hwin : ∀ i j, windowVals (cvtGray (cvResize t0 t0.height t0.width)) i j =
        windowVals (cvtGray t0) i j := by
      intro i j
      exact windowVals_congr (cvtGray t0) (cvtGray (cvResize t0 t0.height t0.width))
        i j rfl rfl (by show t0.height ≠ 0; omega) (by show t0.width ≠ 0; omega)
        hpix_eq
    have hloc : ∀ i j, localS (cvtGray t0)
        (cvtGray (cvResize t0 t0.height t0.width)) i j = 1 :=
      fun i j => localS_eq_one _ _ i j (hwin i j)
    have hssim : structural_similarity (cvtGray t0)
        (cvtGray (cvResize t0 t0.height t0.width)) =
        .ok (mssim (cvtGray t0) (cvtGray (cvResize t0 t0.height t0.width)),
          fun i j => localS (cvtGray t0)
            (cvtGray (cvResize t0 t0.height t0.width)) i j) := by
      unfold structural_similarity
      have hnot : ¬ ((cvtGray t0).height < 7 ∨ (cvtGray t0).width < 7) := by
        push_neg
        exact ⟨hh7, hw7⟩
      rw [if_neg hnot]
    have hdiff : ∀ i j, (diffImage (cvtGray t0)
        (cvtGray (cvResize t0 t0.height t0.width))).pix i j = 255 := by
      intro i j
      show truncByte (localS (cvtGray t0)
        (cvtGray (cvResize t0 t0.height t0.width)) i j * 255) = 255
      rw [hloc i j, one_mul]
      decide
    have hotsu : otsuThreshold (diffImage (cvtGray t0)
        (cvtGray (cvResize t0 t0.height t0.width))) = 0 := by
      apply otsu_const255 _ hdiff
      show 0 < t0.height * t0.width
      exact Nat.mul_pos (by omega) (by omega)
    have hthresh : ∀ i j, (thresholdBinaryInvOtsu (diffImage (cvtGray t0)
        (cvtGray (cvResize t0 t0.height t0.width)))).pix i j = 0 := by
      intro i j
      show (if otsuThreshold (diffImage (cvtGray t0)
          (cvtGray (cvResize t0 t0.height t0.width))) <
          (diffImage (cvtGray t0)
            (cvtGray (cvResize t0 t0.height t0.width))).pix i j
        then 0 else 255) = 0
      rw [hdiff i j, hotsu]
      norm_num
    have hmask := morph_zero _ hthresh
    have hfc : findContoursExternal (morphClose2 (morphOpen2
        (thresholdBinaryInvOtsu (diffImage (cvtGray t0)
          (cvtGray (cvResize t0 t0.height t0.width)))))) = [] := by
      unfold findContoursExternal
      rw [nonzeroPixels_nil _ hmask]
      exact componentsOf_nil _
    constructor
    · simp only [advanced_change_detection, hssim]
      exact mssim_eq_one _ _ hh7 hw7 hloc
    · simp only [advanced_change_detection, hssim, hfc]
      rfl

/-- C1 witness: a concrete 7×7 uniform grey image against itself. -/
theorem c1_witness :
    (advanced_change_detection (some sampleImage) (some sampleImage)).2.1 = 1 ∧
    (advanced_change_detection (some sampleImage) (some sampleImage)).2.2 = [] :=
  c1_identical_images sampleImage (by
    intro i j
    refine ⟨?_, ?_, ?_⟩ <;> · show (100 : ℕ) < 256; norm_num)

end Drishti
